import Mathlib

/-!
Verification development for the HLS2 availability resolver and listing cache
(`HLS2CMR` in `src/HLS/HLS2.py`).

Dates are modelled as integers (days since an arbitrary epoch): the source
stores dates as `YYYY-MM-DD` strings and compares them after parsing, and
ISO-format strings order and equate exactly as the underlying dates do.
The remote catalog is modelled as a function `attempts : Nat → Option (List Granule)`
giving the outcome of each successive `HLS_CMR_query` attempt (`none` = transport
failure, `some gs` = the granule records returned).  `datetime.utcnow().date()`
is passed in explicitly as `today`.
-/

namespace HLS2

/-- The two sensor tags parsed out of granule identifiers (`"S30"` / `"L30"`). -/
inductive Sensor
  | S30
  | L30
deriving DecidableEq, Repr

/-- A raw granule record as produced by `HLS_CMR_query`: identifier, sensor tag,
tile code, acquisition date (the opaque payload and timestamp are never
inspected by the listing core and are omitted). -/
structure Granule where
  ID : String
  sensor : Sensor
  tile : String
  date_UTC : Int
deriving DecidableEq, Repr

/-- One sensor slot of a listing row: a granule reference, the literal string
`"missing"`, or the NaN left by the left-merge (`na`). -/
inductive Slot
  | granule (g : Granule)
  | missing
  | na
deriving DecidableEq, Repr

/-- One row of the `_listing` table: `["date_UTC", "tile", "sentinel", "landsat"]`. -/
structure Cell where
  date_UTC : Int
  tile : String
  sentinel : Slot
  landsat : Slot
deriving DecidableEq, Repr

/-- The mutable state of an `HLS2CMR` object: the `_listing` cell table and the
`_granules` store. -/
structure HLSState where
  _listing : List Cell
  _granules : List Granule
deriving DecidableEq, Repr

/-- `SENTINEL_REPEAT_DAYS = 5` (constant in `HLS2CMR.listing`). -/
def SENTINEL_REPEAT_DAYS : Int := 5

/-- `LANDSAT_REPEAT_DAYS = 16` (constant in `HLS2CMR.listing`). -/
def LANDSAT_REPEAT_DAYS : Int := 16

/-- `GIVEUP_DAYS = 10` (constant in `HLS2CMR.listing`). -/
def GIVEUP_DAYS : Int := 10

/-- `DEFAULT_RETRIES = 3` (module constant). -/
def DEFAULT_RETRIES : Nat := 3

/-- Inclusive day range `date_range(start_UTC, end_UTC)`; also the
`range((end_UTC - start_UTC).days + 1)` offset list building the `dates` frame. -/
def date_range (start_UTC end_UTC : Int) : List Int :=
  (List.range (end_UTC - start_UTC + 1).toNat).map (fun k : Nat => start_UTC + (k : Int))

/-- `drop_duplicates(subset=key)` with the pandas default `keep="first"`:
keeps the first row for each key, preserving row order.  `seen` is the set of
keys already emitted. -/
def dedupKeyAux {α K : Type} [DecidableEq K] (key : α → K) : List K → List α → List α
  | _, [] => []
  | seen, x :: xs =>
    if key x ∈ seen then dedupKeyAux key seen xs
    else x :: dedupKeyAux key (key x :: seen) xs

/-- `pd.concat(...).drop_duplicates(subset=key)` keep-first dedup of a list. -/
def dedupKey {α K : Type} [DecidableEq K] (key : α → K) (l : List α) : List α :=
  dedupKeyAux key [] l

/-- Identity key of a granule record: `subset=["ID", "date_UTC"]`. -/
def granuleKey (g : Granule) : String × Int := (g.ID, g.date_UTC)

/-- Identity key of a listing row: `subset=["date_UTC", "tile"]`. -/
def cellKey (c : Cell) : Int × String := (c.date_UTC, c.tile)

/-- Line 546: `self._granules = pd.concat([self._granules, granules]).drop_duplicates(subset=["ID", "date_UTC"])`. -/
def granules_merge (store new : List Granule) : List Granule :=
  dedupKey granuleKey (store ++ new)

/-- The retry loop of `HLS2CMR.search` (lines 522-544): attempt index `k`,
remaining budget `r`; `none` models `HLSServerUnreachable` after exhausting
the budget. -/
def trySearch (attempts : Nat → Option (List Granule)) : Nat → Nat → Option (List Granule)
  | _, 0 => none
  | k, r + 1 =>
    match attempts k with
    | some gs => some gs
    | none => trySearch attempts (k + 1) r

/-- `HLS2CMR.search`: retry the catalog query up to `retries` times; on success
ingest the returned records into `_granules` (deduplicated by `(ID, date_UTC)`)
and return the fresh records; on exhaustion raise (`none`). -/
def search (st : HLSState) (retries : Nat) (attempts : Nat → Option (List Granule)) :
    Option (List Granule × HLSState) :=
  match trySearch attempts 0 retries with
  | none => none
  | some granules =>
    some (granules, { st with _granules := granules_merge st._granules granules })

/-- `HLS2CMR.dates_listed`: the dates of `_listing` rows whose tile matches. -/
def dates_listed (st : HLSState) (tile : String) : List Int :=
  (st._listing.filter (fun c => decide (c.tile = tile))).map (fun c => c.date_UTC)

/-- Ordering of listing rows by date, used by `sort_values(by="date_UTC")`. -/
def cellLe (a b : Cell) : Prop := a.date_UTC ≤ b.date_UTC

instance : DecidableRel cellLe := fun a b => Int.decLe a.date_UTC b.date_UTC

instance : IsTotal Cell cellLe := ⟨fun a b => Int.le_total a.date_UTC b.date_UTC⟩

instance : IsTrans Cell cellLe := ⟨fun _ _ _ h1 h2 => le_trans h1 h2⟩

/-- The cache-hit branch of `listing` (lines 578-580): filter `_listing` to the
tile, keep dates inside `[start_UTC, end_UTC]`, sort ascending by date. -/
def cached_listing (st : HLSState) (tile : String) (start_UTC end_UTC : Int) : List Cell :=
  List.insertionSort cellLe
    ((st._listing.filter (fun c => decide (c.tile = tile))).filter
      (fun c => decide (start_UTC ≤ c.date_UTC ∧ c.date_UTC ≤ end_UTC)))

/-- `granules[granules.sensor == "S30"]` restricted to one `(tile, date)` merge
key: the sentinel-side rows matched by the pandas merges for that date. -/
def sentinelFor (gs : List Granule) (tile : String) (d : Int) : List Granule :=
  gs.filter (fun g => decide (g.sensor = Sensor.S30 ∧ g.tile = tile ∧ g.date_UTC = d))

/-- `granules[granules.sensor == "L30"]` restricted to one `(tile, date)` merge key. -/
def landsatFor (gs : List Granule) (tile : String) (d : Int) : List Granule :=
  gs.filter (fun g => decide (g.sensor = Sensor.L30 ∧ g.tile = tile ∧ g.date_UTC = d))

/-- `set(sentinel_granules.date_UTC)`: dates of all S30 records returned by the
search (tile-unfiltered, exactly as in the source). -/
def sentinel_dates (gs : List Granule) : List Int :=
  (gs.filter (fun g => decide (g.sensor = Sensor.S30))).map (fun g => g.date_UTC)

/-- `set(landsat_granules.date_UTC)`: dates of all L30 records returned by the search. -/
def landsat_dates (gs : List Granule) : List Int :=
  (gs.filter (fun g => decide (g.sensor = Sensor.L30))).map (fun g => g.date_UTC)

/-- The rows that `pd.merge(dates, pd.merge(landsat_granules, sentinel_granules,
how="outer"), how="left")` produces for one in-window date: matched
(landsat, sentinel) pairs, or a single all-NaN row when nothing matched. -/
def rowsForDate (gs : List Granule) (tile : String) (d : Int) :
    List (Option Granule × Option Granule) :=
  match landsatFor gs tile d, sentinelFor gs tile d with
  | [], [] => [(none, none)]
  | [], s :: S2 => (s :: S2).map (fun s0 => (none, some s0))
  | l :: L2, [] => (l :: L2).map (fun l0 => (some l0, none))
  | l :: L2, s :: S2 => (l :: L2).flatMap (fun l0 => (s :: S2).map (fun s0 => (some l0, some s0)))

/-- `date_list = list(listing.date_UTC)` (line 617): the date column of the
merged frame, one entry per produced row (so dates repeat when a date matched
several granule rows). -/
def listing_date_list (gs : List Granule) (tile : String) (start_UTC end_UTC : Int) : List Int :=
  (date_range start_UTC end_UTC).flatMap (fun d => (rowsForDate gs tile d).map (fun _ => d))

/-- Python `set.add`. -/
def setInsert (d : Int) (s : List Int) : List Int :=
  if d ∈ s then s else d :: s

/-- Second statement of the expectation loop body: add `d` when `d - R` is
already in the expected set `s1`. -/
def expectorBack (R : Int) (s1 : List Int) (d : Int) : List Int :=
  if (d - R) ∈ s1 then setInsert d s1 else s1

/-- One iteration of the expectation loop (lines 623-629 / 646-652): add `d`
when it was observed, then add `d` when `d - R` is already expected. -/
def expectorStep (R : Int) (observed : List Int) (s : List Int) (d : Int) : List Int :=
  expectorBack R (if d ∈ observed then setInsert d s else s) d

/-- The expected-date set for one sensor: fold the expectation loop over the
date column of the frame in order, starting from the empty set. -/
def dates_expected (R : Int) (observed : List Int) (date_list : List Int) : List Int :=
  date_list.foldl (expectorStep R observed) []

/-- Lines 598-664: build the new listing rows for `[start_UTC, end_UTC]` from
the records `gs` returned by the (widened) search.  Per row: an available slot
holds the granule; an absent slot becomes `missing` when the date is expected
and `date >= giveup_date`, else stays NaN. -/
def buildListing (gs : List Granule) (tile : String) (start_UTC end_UTC giveup_date : Int) :
    List Cell :=
  let date_list := listing_date_list gs tile start_UTC end_UTC
  let sentinel_dates_expected := dates_expected SENTINEL_REPEAT_DAYS (sentinel_dates gs) date_list
  let landsat_dates_expected := dates_expected LANDSAT_REPEAT_DAYS (landsat_dates gs) date_list
  (date_range start_UTC end_UTC).flatMap (fun d =>
    (rowsForDate gs tile d).map (fun p =>
      let landsat_slot :=
        match p.1 with
        | some g => Slot.granule g
        | none =>
          if d ∈ landsat_dates_expected ∧ giveup_date ≤ d then Slot.missing else Slot.na
      let sentinel_slot :=
        match p.2 with
        | some g => Slot.granule g
        | none =>
          if d ∈ sentinel_dates_expected ∧ giveup_date ≤ d then Slot.missing else Slot.na
      { date_UTC := d, tile := tile, sentinel := sentinel_slot, landsat := landsat_slot }))

/-- `HLS2CMR.listing` (lines 554-671).  Returns the rows (`none` models the
`HLSServerUnreachable` raise), the updated object state, and the catalog window
actually queried (`none` when the cache answered without a search). -/
def listing (st : HLSState) (tile : String) (start_UTC end_UTC today : Int)
    (retries : Nat) (attempts : Nat → Option (List Granule)) :
    Option (List Cell) × HLSState × Option (Int × Int) :=
  let tile := tile.take 5
  if ∀ d ∈ date_range start_UTC end_UTC, d ∈ dates_listed st tile then
    (some (cached_listing st tile start_UTC end_UTC), st, none)
  else
    let giveup_date := today - GIVEUP_DAYS
    let search_start := start_UTC - max SENTINEL_REPEAT_DAYS LANDSAT_REPEAT_DAYS
    let search_end := end_UTC
    match search st retries attempts with
    | none => (none, st, some (search_start, search_end))
    | some (granules, st1) =>
      let new_listing := buildListing granules tile start_UTC end_UTC giveup_date
      (some new_listing,
       { st1 with _listing := dedupKey cellKey (st1._listing ++ new_listing) },
       some (search_start, search_end))

/-- Outcome of resolving one sensor for one date, mirroring the exceptions
`HLS*NotAvailable` (NaN slot) and `HLS*Missing` (slot `"missing"`). -/
inductive SensorOutcome
  | acquired (g : Granule)
  | notAvailable
  | missingOnServer
deriving DecidableEq, Repr

/-- `HLS2CMR.sentinel_granule`: single-date listing, then inspect the last
sentinel slot of the last row.  `none` models a propagated server-unreachable raise. -/
def sentinel_granule (st : HLSState) (tile : String) (date_UTC today : Int)
    (retries : Nat) (attempts : Nat → Option (List Granule)) :
    Option (SensorOutcome × HLSState) :=
  match listing st tile date_UTC date_UTC today retries attempts with
  | (none, _, _) => none
  | (some rows, st1, _) =>
    match rows.getLast? with
    | none => none
    | some row =>
      match row.sentinel with
      | Slot.na => some (SensorOutcome.notAvailable, st1)
      | Slot.missing => some (SensorOutcome.missingOnServer, st1)
      | Slot.granule g => some (SensorOutcome.acquired g, st1)

/-- `HLS2CMR.landsat_granule`: same as `sentinel_granule` on the landsat slot. -/
def landsat_granule (st : HLSState) (tile : String) (date_UTC today : Int)
    (retries : Nat) (attempts : Nat → Option (List Granule)) :
    Option (SensorOutcome × HLSState) :=
  match listing st tile date_UTC date_UTC today retries attempts with
  | (none, _, _) => none
  | (some rows, st1, _) =>
    match rows.getLast? with
    | none => none
    | some row =>
      match row.landsat with
      | Slot.na => some (SensorOutcome.notAvailable, st1)
      | Slot.missing => some (SensorOutcome.missingOnServer, st1)
      | Slot.granule g => some (SensorOutcome.acquired g, st1)

/-- `HLS2CMR.product_directory`: `products_directory/product/YYYY.MM.DD`. -/
def product_directory (products_directory product : String) (date_UTC : Int) : String :=
  products_directory ++ "/" ++ product ++ "/" ++ toString date_UTC

/-- `HLS2CMR.product_filename`: `product_directory/HLS_tile_date_product.tif`. -/
def product_filename (products_directory product : String) (date_UTC : Int)
    (tile : String) : String :=
  product_directory products_directory product date_UTC ++
    "/HLS_" ++ tile ++ "_" ++ toString date_UTC ++ "_" ++ product ++ ".tif"

/-- The granule-resolution skeleton of `HLS2CMR.NDVI` (lines 306-364): truncate
the tile, form the product cache filename, resolve sentinel then landsat
(`NotAvailable` caught to `none`, `Missing` re-raised, both-absent raised).
Raster arithmetic and file IO (out of the core) are omitted. -/
def NDVI_resolution (st : HLSState) (tile : String) (date_UTC today : Int)
    (retries : Nat) (attempts : Nat → Option (List Granule)) :
    Option (String × Option Granule × Option Granule × HLSState) :=
  let tile := tile.take 5
  let fname := product_filename "HLS2_products" "NDVI" date_UTC tile
  match sentinel_granule st tile date_UTC today retries attempts with
  | none => none
  | some (SensorOutcome.missingOnServer, _) => none
  | some (s_outcome, st1) =>
    let sentinel : Option Granule :=
      match s_outcome with
      | SensorOutcome.acquired g => some g
      | _ => none
    match landsat_granule st1 tile date_UTC today retries attempts with
    | none => none
    | some (SensorOutcome.missingOnServer, _) => none
    | some (l_outcome, st2) =>
      let landsat : Option Granule :=
        match l_outcome with
        | SensorOutcome.acquired g => some g
        | _ => none
      if sentinel.isNone ∧ landsat.isNone then none
      else some (fname, sentinel, landsat, st2)

/-- The granule-resolution skeleton of `HLS2CMR.albedo` (lines 401-481): the
same flow as `NDVI` with the `"albedo"` product name. -/
def albedo_resolution (st : HLSState) (tile : String) (date_UTC today : Int)
    (retries : Nat) (attempts : Nat → Option (List Granule)) :
    Option (String × Option Granule × Option Granule × HLSState) :=
  let tile := tile.take 5
  let fname := product_filename "HLS2_products" "albedo" date_UTC tile
  match sentinel_granule st tile date_UTC today retries attempts with
  | none => none
  | some (SensorOutcome.missingOnServer, _) => none
  | some (s_outcome, st1) =>
    let sentinel : Option Granule :=
      match s_outcome with
      | SensorOutcome.acquired g => some g
      | _ => none
    match landsat_granule st1 tile date_UTC today retries attempts with
    | none => none
    | some (SensorOutcome.missingOnServer, _) => none
    | some (l_outcome, st2) =>
      let landsat : Option Granule :=
        match l_outcome with
        | SensorOutcome.acquired g => some g
        | _ => none
      if sentinel.isNone ∧ landsat.isNone then none
      else some (fname, sentinel, landsat, st2)

/-- Rows (or records) have pairwise-distinct identity keys. -/
def uniqueKeys {α K : Type} [DecidableEq K] (key : α → K) (l : List α) : Prop :=
  l.Pairwise (fun a b => key a ≠ key b)

/-! ### Lemmas about `date_range` -/

lemma mem_date_range {start_UTC end_UTC d : Int} :
    d ∈ date_range start_UTC end_UTC ↔ start_UTC ≤ d ∧ d ≤ end_UTC := by
  simp only [date_range, List.mem_map, List.mem_range]
  constructor
  · rintro ⟨k, hk, rfl⟩
    omega
  · intro h
    exact ⟨(d - start_UTC).toNat, by omega, by omega⟩

lemma pairwise_date_range (start_UTC end_UTC : Int) :
    (date_range start_UTC end_UTC).Pairwise (fun a b => a < b) := by
  unfold date_range
  refine List.Pairwise.map _ ?_ (List.pairwise_lt_range _)
  intro a b h
  omega

/-! ### Lemmas about the expectation fold -/

lemma mem_setInsert {d x : Int} {s : List Int} :
    x ∈ setInsert d s ↔ x = d ∨ x ∈ s := by
  unfold setInsert
  split
  · rename_i h
    constructor
    · exact fun hx => Or.inr hx
    · rintro (rfl | hx)
      · exact h
      · exact hx
  · simp [List.mem_cons]

lemma mem_expectorBack_iff {R : Int} {s1 : List Int} {d x : Int} :
    x ∈ expectorBack R s1 d ↔ ((d - R) ∈ s1 ∧ x = d) ∨ x ∈ s1 := by
  unfold expectorBack
  split <;> rename_i h <;> simp [mem_setInsert, h]

lemma mem_expectorStep_of_mem {R : Int} {obs s : List Int} {d x : Int} (hx : x ∈ s) :
    x ∈ expectorStep R obs s d := by
  unfold expectorStep
  rw [mem_expectorBack_iff]
  split <;> simp [mem_setInsert, hx]

lemma eq_or_mem_of_mem_expectorStep {R : Int} {obs s : List Int} {d x : Int}
    (hx : x ∈ expectorStep R obs s d) : x = d ∨ x ∈ s := by
  unfold expectorStep at hx
  rw [mem_expectorBack_iff] at hx
  rcases hx with ⟨_, rfl⟩ | hx
  · exact Or.inl rfl
  · split at hx
    · rcases mem_setInsert.mp hx with rfl | h
      · exact Or.inl rfl
      · exact Or.inr h
    · exact Or.inr hx

lemma mem_expectorStep_ne {R : Int} {obs s : List Int} {d x : Int} (hne : x ≠ d) :
    x ∈ expectorStep R obs s d ↔ x ∈ s := by
  constructor
  · intro hx
    rcases eq_or_mem_of_mem_expectorStep hx with h | h
    · exact absurd h hne
    · exact h
  · exact mem_expectorStep_of_mem

lemma mem_expectorStep_self {R : Int} (hR : 0 < R) {obs s : List Int} {d : Int} :
    d ∈ expectorStep R obs s d ↔ d ∈ s ∨ d ∈ obs ∨ (d - R) ∈ s := by
  have hne : d - R ≠ d := by omega
  unfold expectorStep
  rw [mem_expectorBack_iff]
  by_cases h1 : d ∈ obs <;> simp [h1, mem_setInsert, hne] <;> tauto

lemma mem_foldl_expector_of_mem {R : Int} {obs : List Int} :
    ∀ (l s : List Int) (x : Int), x ∈ s → x ∈ l.foldl (expectorStep R obs) s := by
  intro l
  induction l with
  | nil => intro s x hx; simpa using hx
  | cons e t ih =>
    intro s x hx
    simpa using ih _ x (mem_expectorStep_of_mem hx)

lemma mem_or_of_mem_foldl_expector {R : Int} {obs : List Int} :
    ∀ (l s : List Int) (x : Int), x ∈ l.foldl (expectorStep R obs) s → x ∈ s ∨ x ∈ l := by
  intro l
  induction l with
  | nil => intro s x hx; exact Or.inl (by simpa using hx)
  | cons e t ih =>
    intro s x hx
    simp only [List.foldl_cons] at hx
    rcases ih _ x hx with h | h
    · rcases eq_or_mem_of_mem_expectorStep h with rfl | h2
      · simp
      · exact Or.inl h2
    · simp [h]

lemma mem_foldl_expector_iff_of_not_mem {R : Int} {obs : List Int}
    {l s : List Int} {x : Int} (hx : x ∉ l) :
    x ∈ l.foldl (expectorStep R obs) s ↔ x ∈ s := by
  constructor
  · intro h
    rcases mem_or_of_mem_foldl_expector l s x h with h | h
    · exact h
    · exact absurd h hx
  · exact mem_foldl_expector_of_mem l s x

lemma foldl_expector_char {R : Int} (hR : 0 < R) {obs : List Int} :
    ∀ (l s : List Int), l.Pairwise (fun a b => a < b) →
      ∀ d ∈ l,
        (d ∈ l.foldl (expectorStep R obs) s ↔
          d ∈ s ∨ d ∈ obs ∨ (d - R) ∈ l.foldl (expectorStep R obs) s) := by
  intro l
  induction l with
  | nil => intro s _ d hd; cases hd
  | cons e t ih =>
    intro s hp d hd
    have he_t : ∀ x ∈ t, e < x := (List.pairwise_cons.mp hp).1
    have hp_t : t.Pairwise (fun a b => a < b) := (List.pairwise_cons.mp hp).2
    simp only [List.foldl_cons]
    rcases List.mem_cons.mp hd with rfl | hdt
    · have h1 : d ∉ t := fun h => absurd (he_t d h) (lt_irrefl d)
      have h2 : d - R ∉ t := by
        intro h
        have := he_t _ h
        omega
      rw [mem_foldl_expector_iff_of_not_mem h1, mem_foldl_expector_iff_of_not_mem h2,
        mem_expectorStep_self hR, mem_expectorStep_ne (by omega : d - R ≠ d)]
    · have hne : d ≠ e := by
        intro h
        subst h
        exact absurd (he_t d hdt) (lt_irrefl d)
      rw [ih (expectorStep R obs s e) hp_t d hdt, mem_expectorStep_ne hne]

lemma expectorStep_idem {R : Int} (hR : R ≠ 0) (obs s : List Int) (d : Int) :
    expectorStep R obs (expectorStep R obs s d) d = expectorStep R obs s d := by
  have hne : ¬(d - R = d) := by omega
  by_cases h1 : d ∈ obs <;> by_cases h2 : (d - R) ∈ s <;> by_cases h3 : d ∈ s <;>
    simp [expectorStep, expectorBack, setInsert, h1, h2, h3, hne, List.mem_cons]

lemma foldl_expector_replicate {R : Int} (hR : R ≠ 0) (obs : List Int) :
    ∀ (n : Nat) (s : List Int) (d : Int), n ≠ 0 →
      (List.replicate n d).foldl (expectorStep R obs) s = expectorStep R obs s d := by
  intro n
  induction n with
  | zero => intro s d h; exact absurd rfl h
  | succ m ih =>
    intro s d _
    rcases Nat.eq_zero_or_pos m with rfl | hm
    · simp [List.replicate]
    · simp only [List.replicate_succ, List.foldl_cons]
      exact (ih (expectorStep R obs s d) d (by omega)).trans
        (expectorStep_idem hR obs s d)

lemma foldl_expector_flatMap {R : Int} (hR : R ≠ 0) (obs : List Int)
    (f : Int → Nat) :
    ∀ (l s : List Int), (∀ d ∈ l, f d ≠ 0) →
      (l.flatMap (fun d => List.replicate (f d) d)).foldl (expectorStep R obs) s =
        l.foldl (expectorStep R obs) s := by
  intro l
  induction l with
  | nil => intro s _; rfl
  | cons e t ih =>
    intro s hf
    simp only [List.flatMap_cons, List.foldl_append, List.foldl_cons]
    rw [foldl_expector_replicate hR obs (f e) s e (hf e (by simp))]
    exact ih _ (fun d hd => hf d (by simp [hd]))

/-! ### Lemmas about keep-first deduplication -/

section Dedup

variable {α K : Type} [DecidableEq K] {key : α → K}

lemma mem_of_mem_dedupKeyAux :
    ∀ (l : List α) (seen : List K) (x : α), x ∈ dedupKeyAux key seen l → x ∈ l := by
  intro l
  induction l with
  | nil => intro seen x hx; simpa [dedupKeyAux] using hx
  | cons a t ih =>
    intro seen x hx
    unfold dedupKeyAux at hx
    split at hx
    · exact List.mem_cons_of_mem a (ih _ x hx)
    · rcases List.mem_cons.mp hx with rfl | h
      · exact List.mem_cons_self _ _
      · exact List.mem_cons_of_mem a (ih _ x h)

lemma dedupKeyAux_unique :
    ∀ (l : List α) (seen : List K),
      (dedupKeyAux key seen l).Pairwise (fun a b => key a ≠ key b) ∧
        ∀ x ∈ dedupKeyAux key seen l, key x ∉ seen := by
  intro l
  induction l with
  | nil => intro seen; simp [dedupKeyAux]
  | cons a t ih =>
    intro seen
    unfold dedupKeyAux
    split
    · exact ⟨(ih seen).1, (ih seen).2⟩
    · rename_i hns
      refine ⟨List.pairwise_cons.mpr ⟨?_, (ih (key a :: seen)).1⟩, ?_⟩
      · intro x hx
        have := (ih (key a :: seen)).2 x hx
        intro hkey
        exact this (by simp [hkey])
      · intro x hx
        rcases List.mem_cons.mp hx with rfl | h
        · exact hns
        · have := (ih (key a :: seen)).2 x h
          intro hseen
          exact this (by simp [hseen])

lemma dedupKey_unique (l : List α) : uniqueKeys key (dedupKey key l) :=
  (dedupKeyAux_unique l []).1

lemma mem_dedupKeyAux_append_left :
    ∀ (l1 : List α) (seen : List K) (l2 : List α),
      l1.Pairwise (fun a b => key a ≠ key b) → (∀ x ∈ l1, key x ∉ seen) →
      ∀ c ∈ l1, c ∈ dedupKeyAux key seen (l1 ++ l2) := by
  intro l1
  induction l1 with
  | nil => intro seen l2 _ _ c hc; cases hc
  | cons a t ih =>
    intro seen l2 hp hs c hc
    have ha : key a ∉ seen := hs a (List.mem_cons_self _ _)
    simp only [List.cons_append]
    unfold dedupKeyAux
    rw [if_neg ha]
    rcases List.mem_cons.mp hc with rfl | h
    · exact List.mem_cons_self _ _
    · refine List.mem_cons_of_mem a ?_
      refine ih (key a :: seen) l2 (List.pairwise_cons.mp hp).2 ?_ c h
      intro x hx
      simp only [List.mem_cons]
      push_neg
      exact ⟨fun he => (List.pairwise_cons.mp hp).1 x hx he.symm, hs x (List.mem_cons_of_mem a hx)⟩

lemma mem_dedupKey_append_left {l1 l2 : List α} (hp : uniqueKeys key l1) :
    ∀ c ∈ l1, c ∈ dedupKey key (l1 ++ l2) :=
  mem_dedupKeyAux_append_left l1 [] l2 hp (by simp)

lemma dedupKeyAux_all_seen :
    ∀ (l : List α) (seen : List K), (∀ x ∈ l, key x ∈ seen) → dedupKeyAux key seen l = [] := by
  intro l
  induction l with
  | nil => intro seen _; rfl
  | cons a t ih =>
    intro seen h
    unfold dedupKeyAux
    rw [if_pos (h a (List.mem_cons_self _ _))]
    exact ih seen (fun x hx => h x (List.mem_cons_of_mem a hx))

lemma dedupKeyAux_append_all_seen :
    ∀ (l1 : List α) (seen : List K) (l2 : List α),
      l1.Pairwise (fun a b => key a ≠ key b) → (∀ x ∈ l1, key x ∉ seen) →
      (∀ x ∈ l2, key x ∈ seen ∨ key x ∈ l1.map key) →
      dedupKeyAux key seen (l1 ++ l2) = l1 := by
  intro l1
  induction l1 with
  | nil =>
    intro seen l2 _ _ h2
    simpa using dedupKeyAux_all_seen l2 seen (fun x hx => by simpa using h2 x hx)
  | cons a t ih =>
    intro seen l2 hp hs h2
    have ha : key a ∉ seen := hs a (List.mem_cons_self _ _)
    simp only [List.cons_append]
    unfold dedupKeyAux
    rw [if_neg ha]
    refine congrArg (List.cons a) ?_
    refine ih (key a :: seen) l2 (List.pairwise_cons.mp hp).2 ?_ ?_
    · intro x hx
      simp only [List.mem_cons]
      push_neg
      exact ⟨fun he => (List.pairwise_cons.mp hp).1 x hx he.symm, hs x (List.mem_cons_of_mem a hx)⟩
    · intro x hx
      rcases h2 x hx with h | h
      · exact Or.inl (by simp [h])
      · rcases List.mem_map.mp h with ⟨y, hy, hxy⟩
        rcases List.mem_cons.mp hy with rfl | hyt
        · exact Or.inl (by simp [hxy])
        · exact Or.inr (List.mem_map.mpr ⟨y, hyt, hxy⟩)

lemma dedupKey_append_of_keys_subset {l1 l2 : List α} (hp : uniqueKeys key l1)
    (h2 : ∀ x ∈ l2, key x ∈ l1.map key) : dedupKey key (l1 ++ l2) = l1 :=
  dedupKeyAux_append_all_seen l1 [] l2 hp (by simp) (fun x hx => Or.inr (h2 x hx))

end Dedup

/-! ### Lemmas about the retry loop -/

lemma trySearch_all_fail (attempts : Nat → Option (List Granule)) :
    ∀ (r k : Nat), (∀ j, j < r → attempts (k + j) = none) → trySearch attempts k r = none := by
  intro r
  induction r with
  | zero => intro k _; rfl
  | succ m ih =>
    intro k h
    unfold trySearch
    have h0 : attempts k = none := by simpa using h 0 (by omega)
    rw [h0]
    exact ih (k + 1) (fun j hj => by
      have := h (j + 1) (by omega)
      simpa [Nat.add_assoc, Nat.add_comm 1 j] using this)

lemma trySearch_first_success (attempts : Nat → Option (List Granule)) :
    ∀ (i r k : Nat) (gs : List Granule), i < r → attempts (k + i) = some gs →
      (∀ j, j < i → attempts (k + j) = none) → trySearch attempts k r = some gs := by
  intro i
  induction i with
  | zero =>
    intro r k gs hir hk _
    match r, hir with
    | m + 1, _ =>
      unfold trySearch
      have hk2 : attempts k = some gs := by simpa using hk
      rw [hk2]
  | succ m ih =>
    intro r k gs hir hk hless
    match r, hir with
    | n + 1, hir =>
      unfold trySearch
      have h0 : attempts k = none := by simpa using hless 0 (by omega)
      rw [h0]
      refine ih n (k + 1) gs (by omega) ?_ ?_
      · have : k + 1 + m = k + (m + 1) := by omega
        rw [this]
        exact hk
      · intro j hj
        have : k + 1 + j = k + (j + 1) := by omega
        rw [this]
        exact hless (j + 1) (by omega)

lemma trySearch_success_exists (attempts : Nat → Option (List Granule)) :
    ∀ (r k : Nat) (gs : List Granule), trySearch attempts k r = some gs →
      ∃ j, attempts j = some gs := by
  intro r
  induction r with
  | zero => intro k gs h; cases h
  | succ m ih =>
    intro k gs h
    unfold trySearch at h
    rcases ha : attempts k with _ | gs2
    · rw [ha] at h
      exact ih (k + 1) gs h
    · rw [ha] at h
      exact ⟨k, by simpa using ha ▸ h⟩

/-! ### Lemmas about row building -/

lemma rowsForDate_ne_nil (gs : List Granule) (tile : String) (d : Int) :
    rowsForDate gs tile d ≠ [] := by
  unfold rowsForDate
  rcases hL : landsatFor gs tile d with _ | ⟨l, L2⟩ <;>
    rcases hS : sentinelFor gs tile d with _ | ⟨s, S2⟩ <;> simp

lemma rowsForDate_length_one {gs : List Granule} {tile : String} {d : Int}
    (hL : (landsatFor gs tile d).length ≤ 1) (hS : (sentinelFor gs tile d).length ≤ 1) :
    (rowsForDate gs tile d).length = 1 := by
  unfold rowsForDate
  rcases hLe : landsatFor gs tile d with _ | ⟨l, L2⟩ <;>
    rcases hSe : sentinelFor gs tile d with _ | ⟨s, S2⟩
  · rfl
  · rw [hSe] at hS
    have : S2 = [] := by
      cases S2
      · rfl
      · simp at hS
    subst this
    rfl
  · rw [hLe] at hL
    have : L2 = [] := by
      cases L2
      · rfl
      · simp at hL
    subst this
    rfl
  · rw [hLe] at hL
    rw [hSe] at hS
    have h1 : L2 = [] := by
      cases L2
      · rfl
      · simp at hL
    have h2 : S2 = [] := by
      cases S2
      · rfl
      · simp at hS
    subst h1
    subst h2
    rfl

lemma mem_buildListing_date {gs : List Granule} {tile : String}
    {start_UTC end_UTC giveup_date : Int} {c : Cell}
    (hc : c ∈ buildListing gs tile start_UTC end_UTC giveup_date) :
    c.date_UTC ∈ date_range start_UTC end_UTC ∧ c.tile = tile := by
  unfold buildListing at hc
  rcases List.mem_flatMap.mp hc with ⟨d, hd, hcd⟩
  rcases List.mem_map.mp hcd with ⟨p, _, hp⟩
  subst hp
  exact ⟨hd, rfl⟩

lemma exists_buildListing_row {gs : List Granule} {tile : String}
    {start_UTC end_UTC giveup_date : Int} {d : Int}
    (hd : d ∈ date_range start_UTC end_UTC) :
    ∃ c ∈ buildListing gs tile start_UTC end_UTC giveup_date, c.date_UTC = d := by
  unfold buildListing
  rcases hr : rowsForDate gs tile d with _ | ⟨p, ps⟩
  · exact absurd hr (rowsForDate_ne_nil gs tile d)
  · refine ⟨_, List.mem_flatMap.mpr ⟨d, hd, List.mem_map.mpr ⟨p, by rw [hr]; simp, rfl⟩⟩, rfl⟩

lemma map_date_flatMap_rows (f : Int → List Cell) :
    ∀ l : List Int, (∀ d ∈ l, (f d).map Cell.date_UTC = [d]) →
      (l.flatMap f).map Cell.date_UTC = l := by
  intro l
  induction l with
  | nil => intro _; rfl
  | cons e t ih =>
    intro h
    simp only [List.flatMap_cons, List.map_append, h e (List.mem_cons_self _ _)]
    rw [ih (fun d hd => h d (List.mem_cons_of_mem e hd))]
    rfl

lemma buildListing_map_date {gs : List Granule} {tile : String}
    {start_UTC end_UTC giveup_date : Int}
    (hone : ∀ d : Int, (landsatFor gs tile d).length ≤ 1 ∧ (sentinelFor gs tile d).length ≤ 1) :
    (buildListing gs tile start_UTC end_UTC giveup_date).map Cell.date_UTC =
      date_range start_UTC end_UTC := by
  unfold buildListing
  refine map_date_flatMap_rows _ _ (fun d _ => ?_)
  rw [List.map_map]
  have hlen : ((rowsForDate gs tile d).map
      (Cell.date_UTC ∘ fun p : Option Granule × Option Granule =>
        ({ date_UTC := d, tile := tile,
           sentinel := match p.2 with
             | some g => Slot.granule g
             | none => if d ∈ dates_expected SENTINEL_REPEAT_DAYS (sentinel_dates gs)
                 (listing_date_list gs tile start_UTC end_UTC) ∧ giveup_date ≤ d
               then Slot.missing else Slot.na,
           landsat := match p.1 with
             | some g => Slot.granule g
             | none => if d ∈ dates_expected LANDSAT_REPEAT_DAYS (landsat_dates gs)
                 (listing_date_list gs tile start_UTC end_UTC) ∧ giveup_date ≤ d
               then Slot.missing else Slot.na } : Cell))) =
      (rowsForDate gs tile d).map (fun _ => d) := by
    exact List.map_congr_left (fun p _ => rfl)
  rw [hlen]
  have h1 := rowsForDate_length_one (hone d).1 (hone d).2
  rcases hr : rowsForDate gs tile d with _ | ⟨p, ps⟩
  · rw [hr] at h1
    cases h1
  · rw [hr] at h1
    simp only [List.length_cons] at h1
    have : ps = [] := List.length_eq_zero.mp (by omega)
    subst this
    rfl

lemma listing_date_list_expected_eq {R : Int} (hR : R ≠ 0) (obs : List Int)
    (gs : List Granule) (tile : String) (start_UTC end_UTC : Int) :
    dates_expected R obs (listing_date_list gs tile start_UTC end_UTC) =
      dates_expected R obs (date_range start_UTC end_UTC) := by
  unfold dates_expected listing_date_list
  have hmap : ∀ (L : List (Option Granule × Option Granule)) (d : Int),
      L.map (fun _ => d) = List.replicate L.length d := by
    intro L d
    induction L with
    | nil => rfl
    | cons p ps ih => simp [List.replicate_succ, ih]
  have hfun : (fun d : Int => (rowsForDate gs tile d).map (fun _ => d)) =
      (fun d : Int => List.replicate (rowsForDate gs tile d).length d) :=
    funext (fun d => hmap _ d)
  rw [hfun]
  refine foldl_expector_flatMap hR obs _ _ _ (fun d _ => ?_)
  intro hzero
  exact rowsForDate_ne_nil gs tile d (List.length_eq_zero.mp hzero)

/-! ### Strictly sorted integer lists are determined by their members -/

lemma eq_of_pairwise_lt_of_mem_iff :
    ∀ (l1 l2 : List Int), l1.Pairwise (fun a b => a < b) → l2.Pairwise (fun a b => a < b) →
      (∀ x, x ∈ l1 ↔ x ∈ l2) → l1 = l2 := by
  intro l1
  induction l1 with
  | nil =>
    intro l2 _ _ hmm
    cases l2 with
    | nil => rfl
    | cons b t2 => exact absurd ((hmm b).mpr (List.mem_cons_self _ _)) (by simp)
  | cons a t1 ih =>
    intro l2 hp1 hp2 hmm
    cases l2 with
    | nil => exact absurd ((hmm a).mp (List.mem_cons_self _ _)) (by simp)
    | cons b t2 =>
      have hab : a = b := by
        have ha2 : a ∈ b :: t2 := (hmm a).mp (List.mem_cons_self _ _)
        have hb1 : b ∈ a :: t1 := (hmm b).mpr (List.mem_cons_self _ _)
        rcases List.mem_cons.mp ha2 with h | h
        · exact h
        · rcases List.mem_cons.mp hb1 with h2 | h2
          · exact h2.symm
          · have hba : b < a := (List.pairwise_cons.mp hp2).1 a h
            have hab : a < b := (List.pairwise_cons.mp hp1).1 b h2
            omega
      subst hab
      refine congrArg (List.cons a) (ih t2 (List.pairwise_cons.mp hp1).2
        (List.pairwise_cons.mp hp2).2 (fun x => ?_))
      constructor
      · intro hx
        have hax : a < x := (List.pairwise_cons.mp hp1).1 x hx
        rcases List.mem_cons.mp ((hmm x).mp (List.mem_cons_of_mem a hx)) with rfl | h
        · omega
        · exact h
      · intro hx
        have hax : a < x := (List.pairwise_cons.mp hp2).1 x hx
        rcases List.mem_cons.mp ((hmm x).mpr (List.mem_cons_of_mem a hx)) with rfl | h
        · omega
        · exact h

/-! ### The cache-hit branch returns one row per requested date -/

lemma mem_cached_filter_iff {st : HLSState} {tile : String} {start_UTC end_UTC : Int} {c : Cell} :
    c ∈ (st._listing.filter (fun c => decide (c.tile = tile))).filter
        (fun c => decide (start_UTC ≤ c.date_UTC ∧ c.date_UTC ≤ end_UTC)) ↔
      c ∈ st._listing ∧ c.tile = tile ∧ start_UTC ≤ c.date_UTC ∧ c.date_UTC ≤ end_UTC := by
  simp only [List.mem_filter, decide_eq_true_eq]
  tauto

lemma cached_listing_map_date {st : HLSState} {tile : String} {start_UTC end_UTC : Int}
    (hgood : uniqueKeys cellKey st._listing)
    (hcov : ∀ d ∈ date_range start_UTC end_UTC, d ∈ dates_listed st tile) :
    (cached_listing st tile start_UTC end_UTC).map Cell.date_UTC =
      date_range start_UTC end_UTC := by
  set L0 := (st._listing.filter (fun c => decide (c.tile = tile))).filter
    (fun c => decide (start_UTC ≤ c.date_UTC ∧ c.date_UTC ≤ end_UTC)) with hL0
  have hsub : List.Sublist L0 st._listing :=
    (List.filter_sublist _).trans (List.filter_sublist _)
  have hpair0 : L0.Pairwise (fun a b => cellKey a ≠ cellKey b) := hgood.sublist hsub
  have hdate_ne : L0.Pairwise (fun a b => a.date_UTC ≠ b.date_UTC) := by
    refine hpair0.imp_of_mem ?_
    intro a b ha hb hkey hdate
    have hta : a.tile = tile := (mem_cached_filter_iff.mp ha).2.1
    have htb : b.tile = tile := (mem_cached_filter_iff.mp hb).2.1
    exact hkey (by simp [cellKey, hdate, hta, htb])
  have hperm : List.Perm (List.insertionSort cellLe L0) L0 :=
    List.perm_insertionSort cellLe L0
  have hsorted : List.Sorted cellLe (List.insertionSort cellLe L0) :=
    List.sorted_insertionSort cellLe L0
  have hsorted_ne : (List.insertionSort cellLe L0).Pairwise
      (fun a b => a.date_UTC ≠ b.date_UTC) :=
    (hperm.pairwise_iff (fun hab => Ne.symm hab)).mpr hdate_ne
  have hmaple : ((List.insertionSort cellLe L0).map Cell.date_UTC).Pairwise
      (fun a b => a ≤ b) :=
    List.Pairwise.map _ (fun a b h => h) hsorted
  have hmapne : ((List.insertionSort cellLe L0).map Cell.date_UTC).Pairwise
      (fun a b => a ≠ b) :=
    List.Pairwise.map _ (fun a b h => h) hsorted_ne
  have hmaplt : ((List.insertionSort cellLe L0).map Cell.date_UTC).Pairwise
      (fun a b => a < b) :=
    (hmaple.and hmapne).imp (fun h => lt_of_le_of_ne h.1 h.2)
  unfold cached_listing
  rw [← hL0]
  refine eq_of_pairwise_lt_of_mem_iff _ _ hmaplt (pairwise_date_range _ _) (fun x => ?_)
  constructor
  · intro hx
    rcases List.mem_map.mp hx with ⟨c, hc, hcd⟩
    have hc0 : c ∈ L0 := hperm.mem_iff.mp hc
    have := mem_cached_filter_iff.mp hc0
    subst hcd
    exact mem_date_range.mpr ⟨this.2.2.1, this.2.2.2⟩
  · intro hx
    have hdl := hcov x hx
    unfold dates_listed at hdl
    rcases List.mem_map.mp hdl with ⟨c, hc, hcd⟩
    have htile : c.tile = tile := by
      have := (List.mem_filter.mp hc).2
      simpa using this
    have hmem : c ∈ st._listing := (List.mem_filter.mp hc).1
    have hrange := mem_date_range.mp hx
    have hc0 : c ∈ L0 := mem_cached_filter_iff.mpr
      ⟨hmem, htile, by omega, by omega⟩
    exact List.mem_map.mpr ⟨c, hperm.mem_iff.mpr hc0, hcd⟩

/-! ### Branch equations for `listing` -/

lemma listing_covered_eq {st : HLSState} {tile : String} {start_UTC end_UTC today : Int}
    {retries : Nat} {attempts : Nat → Option (List Granule)}
    (hcov : ∀ d ∈ date_range start_UTC end_UTC, d ∈ dates_listed st (tile.take 5)) :
    listing st tile start_UTC end_UTC today retries attempts =
      (some (cached_listing st (tile.take 5) start_UTC end_UTC), st, none) := by
  unfold listing
  rw [if_pos hcov]

lemma listing_uncovered_eq {st : HLSState} {tile : String} {start_UTC end_UTC today : Int}
    {retries : Nat} {attempts : Nat → Option (List Granule)}
    (hgap : ¬ ∀ d ∈ date_range start_UTC end_UTC, d ∈ dates_listed st (tile.take 5)) :
    listing st tile start_UTC end_UTC today retries attempts =
      match search st retries attempts with
      | none =>
        (none, st, some (start_UTC - max SENTINEL_REPEAT_DAYS LANDSAT_REPEAT_DAYS, end_UTC))
      | some (granules, st1) =>
        (some (buildListing granules (tile.take 5) start_UTC end_UTC (today - GIVEUP_DAYS)),
         { st1 with _listing := dedupKey cellKey (st1._listing ++
             buildListing granules (tile.take 5) start_UTC end_UTC (today - GIVEUP_DAYS)) },
         some (start_UTC - max SENTINEL_REPEAT_DAYS LANDSAT_REPEAT_DAYS, end_UTC)) := by
  unfold listing
  rw [if_neg hgap]

/-! ### Claim theorems -/

/-- C1: the claim states a cell with no record is `missing` exactly when it is
expected and `date ≤ today − 10`.  The code compares the other way round
(`date >= giveup_date`, lines 633-637): in the spec scenario (sensor observed
on day 0, window day 0..19, today day 19, so the give-up boundary is day 9),
the expected-but-absent day 5 (2024-01-06) comes out `na` (not-yet-available)
and the expected-but-absent day 15 (2024-01-16) comes out `missing` — the
exact opposite of the claim. -/
theorem C1_giveup_comparison_reversed :
    let g0 : Granule :=
      { ID := "HLS.S30.T11SPS.A", sensor := Sensor.S30, tile := "11SPS", date_UTC := 0 }
    let atts : Nat → Option (List Granule) := fun _ => some [g0]
    let r := listing { _listing := [], _granules := [] } "11SPS" 0 19 19 3 atts
    ((r.1.getD []).get? 5).map Cell.sentinel = some Slot.na ∧
      ((r.1.getD []).get? 15).map Cell.sentinel = some Slot.missing ∧
      ((r.1.getD []).get? 0).map Cell.sentinel = some (Slot.granule g0) := by
  decide

/-- C2: the claim states that an observation in the widened pre-roll (before
the requested start) seeds in-window expected dates.  The code does widen the
search window by 16 days, but the expectation loop only ranges over in-window
dates, so a sentinel observation on day −5 leaves the expected set for window
day 0..2 empty, and day 0 (= −5 + one 5-day cycle) classifies `na` even though
the give-up boundary (today 5 − 10 = −5) has long passed it. -/
theorem C2_preroll_observation_not_expected :
    let g0 : Granule :=
      { ID := "HLS.S30.T11SPS.B", sensor := Sensor.S30, tile := "11SPS", date_UTC := -5 }
    let atts : Nat → Option (List Granule) := fun _ => some [g0]
    let r := listing { _listing := [], _granules := [] } "11SPS" 0 2 5 3 atts
    r.2.2 = some (-16, 2) ∧
      dates_expected SENTINEL_REPEAT_DAYS (sentinel_dates [g0])
        (listing_date_list [g0] "11SPS" 0 2) = [] ∧
      ((r.1.getD []).get? 0).map Cell.sentinel = some Slot.na := by
  decide

/-- C3 counterexample: after `listing` on day 0 alone, a second call on days
0..1 (day 0 covered, day 1 the gap) delegates the whole widened range
`[0 − 16, 1]` to the catalog — not just the uncovered day 1 — and builds fresh
rows for both day 0 and day 1, not only for the gap date. -/
theorem C3_counterexample :
    let atts : Nat → Option (List Granule) := fun _ => some []
    let r1 := listing { _listing := [], _granules := [] } "11SPS" 0 0 5 3 atts
    let r2 := listing r1.2.1 "11SPS" 0 1 5 3 atts
    r2.2.2 = some (-16, 1) ∧ (r2.1.getD []).map Cell.date_UTC = [0, 1] := by
  decide

/-- C4 counterexample: a cell classified `missing` is returned differently by a
later query that extends coverage.  Day 5 is expected (observation on day 0,
5-day cycle) and absent; with today = 6 the comparison `5 ≥ 6 − 10`
makes it `missing`.  A second call over days 0..6 with today = 30 rebuilds all
rows and returns `na` for day 5 (`5 ≥ 20` fails), while the stored cell keeps
`missing` — so the cell previously returned for a date inside range A changes
on a later covering query. -/
theorem C4_counterexample :
    let g0 : Granule :=
      { ID := "HLS.S30.T11SPS.C", sensor := Sensor.S30, tile := "11SPS", date_UTC := 0 }
    let atts : Nat → Option (List Granule) := fun _ => some [g0]
    let r1 := listing { _listing := [], _granules := [] } "11SPS" 0 5 6 3 atts
    let r2 := listing r1.2.1 "11SPS" 0 6 30 3 atts
    ((r1.1.getD []).get? 5).map Cell.sentinel = some Slot.missing ∧
      ((r2.1.getD []).get? 5).map Cell.sentinel = some Slot.na ∧
      (r2.2.1._listing.filter (fun c => decide (c.date_UTC = 5))).map Cell.sentinel =
        [Slot.missing] := by
  decide

/-- C6 counterexample: when the catalog returns two granule records of the same
sensor on the same date/tile, the pandas merges produce two rows for that date,
so a single-day listing returns two rows instead of exactly one row per date. -/
theorem C6_counterexample :
    let g1 : Granule :=
      { ID := "HLS.S30.T11SPS.D", sensor := Sensor.S30, tile := "11SPS", date_UTC := 0 }
    let g2 : Granule :=
      { ID := "HLS.S30.T11SPS.E", sensor := Sensor.S30, tile := "11SPS", date_UTC := 0 }
    let atts : Nat → Option (List Granule) := fun _ => some [g1, g2]
    let r := listing { _listing := [], _granules := [] } "11SPS" 0 0 5 3 atts
    (r.1.getD []).map Cell.date_UTC = [0, 0] := by
  decide

/-- Fresh `HLS2CMR` state: both tables empty. -/
def emptyState : HLSState := { _listing := [], _granules := [] }

/-- A concrete stored cell used in witness scenarios. -/
def c0w : Cell := { date_UTC := 0, tile := "11SPS", sentinel := Slot.na, landsat := Slot.na }

/-- A one-cell cache used in witness scenarios. -/
def st0w : HLSState := { _listing := [c0w], _granules := [] }

/-- A concrete sentinel granule on day 0 used in witness scenarios. -/
def g0w : Granule :=
  { ID := "HLS.S30.T11SPS.F", sensor := Sensor.S30, tile := "11SPS", date_UTC := 0 }

lemma search_some_eq {st : HLSState} {retries : Nat} {attempts : Nat → Option (List Granule)}
    {gs : List Granule} {st1 : HLSState} (h : search st retries attempts = some (gs, st1)) :
    st1 = { st with _granules := granules_merge st._granules gs } ∧
      trySearch attempts 0 retries = some gs := by
  unfold search at h
  rcases htr : trySearch attempts 0 retries with _ | gs2
  · rw [htr] at h
    cases h
  · rw [htr] at h
    simp only [Option.some.injEq, Prod.mk.injEq] at h
    rcases h with ⟨rfl, rfl⟩
    exact ⟨rfl, rfl⟩

/-- C5: a date of the queried window is in the expected set computed by the
expectation loop iff it was observed or lies one repeat cycle after an expected
date — expectation propagates forward transitively through the queried span
(the loop runs over the date column in chronological order, so earlier
inferences seed later ones). -/
theorem C5_expectation_propagation (R : Int) (observed : List Int) (gs : List Granule)
    (tile : String) (start_UTC end_UTC d : Int) (hR : 0 < R)
    (hd : d ∈ date_range start_UTC end_UTC) :
    d ∈ dates_expected R observed (listing_date_list gs tile start_UTC end_UTC) ↔
      d ∈ observed ∨
        (d - R) ∈ dates_expected R observed (listing_date_list gs tile start_UTC end_UTC) := by
  rw [listing_date_list_expected_eq (by omega) observed gs tile start_UTC end_UTC]
  unfold dates_expected
  have h := @foldl_expector_char R hR observed (date_range start_UTC end_UTC) []
    (pairwise_date_range start_UTC end_UTC) d hd
  simpa using h

/-- C5 witness: cycle 5, observation on day 0, window day 0..19: day 15 is
expected iff day 10 is (it is not directly observed). -/
theorem C5_expectation_propagation_witness :
    (0 : Int) < 5 ∧ (15 : Int) ∈ date_range 0 19 ∧
      ((15 : Int) ∈ dates_expected 5 [0] (listing_date_list [] "11SPS" 0 19) ↔
        (15 : Int) ∈ [(0 : Int)] ∨
          ((15 : Int) - 5) ∈ dates_expected 5 [0] (listing_date_list [] "11SPS" 0 19)) :=
  ⟨by decide, by decide,
    C5_expectation_propagation 5 [0] [] "11SPS" 0 19 15 (by decide) (by decide)⟩

/-- C7: when the requested range is not fully covered, the catalog is queried
with up to `retries` attempts: if attempt `i < retries` succeeds after `i`
failures, `listing` returns rows and the merged state normally (no error); if
all `retries` attempts fail, `listing` raises (returns `none`) and both the
listing cache and the granule store are left exactly as they were. -/
theorem C7_retry_semantics (st : HLSState) (tile : String) (start_UTC end_UTC today : Int)
    (retries : Nat) (attempts : Nat → Option (List Granule))
    (hgap : ¬ ∀ d ∈ date_range start_UTC end_UTC, d ∈ dates_listed st (tile.take 5)) :
    (∀ (i : Nat) (gs : List Granule), i < retries → attempts i = some gs →
      (∀ j, j < i → attempts j = none) →
      listing st tile start_UTC end_UTC today retries attempts =
        (some (buildListing gs (tile.take 5) start_UTC end_UTC (today - GIVEUP_DAYS)),
         { _listing := dedupKey cellKey (st._listing ++
             buildListing gs (tile.take 5) start_UTC end_UTC (today - GIVEUP_DAYS)),
           _granules := granules_merge st._granules gs },
         some (start_UTC - max SENTINEL_REPEAT_DAYS LANDSAT_REPEAT_DAYS, end_UTC))) ∧
    ((∀ j, j < retries → attempts j = none) →
      listing st tile start_UTC end_UTC today retries attempts =
        (none, st, some (start_UTC - max SENTINEL_REPEAT_DAYS LANDSAT_REPEAT_DAYS, end_UTC))) := by
  constructor
  · intro i gs hi hsome hnone
    have htr : trySearch attempts 0 retries = some gs :=
      trySearch_first_success attempts i retries 0 gs hi (by simpa using hsome)
        (fun j hj => by simpa using hnone j hj)
    rw [listing_uncovered_eq hgap]
    unfold search
    rw [htr]
  · intro hall
    have htr : trySearch attempts 0 retries = none :=
      trySearch_all_fail attempts retries 0 (fun j hj => by simpa using hall j hj)
    rw [listing_uncovered_eq hgap]
    unfold search
    rw [htr]

/-- C7 witness: attempts 0 and 1 fail, attempt 2 (of 3) succeeds with an empty
result: `listing` succeeds normally. -/
theorem C7_retry_semantics_witness :
    let atts : Nat → Option (List Granule) := fun i => if i = 2 then some [] else none
    (¬ ∀ d ∈ date_range 0 0,
        d ∈ dates_listed { _listing := [], _granules := [] } ("11SPS".take 5)) ∧
      listing { _listing := [], _granules := [] } "11SPS" 0 0 5 3 atts =
        (some (buildListing [] ("11SPS".take 5) 0 0 (5 - GIVEUP_DAYS)),
         { _listing := dedupKey cellKey ([] ++ buildListing [] ("11SPS".take 5) 0 0 (5 - GIVEUP_DAYS)),
           _granules := granules_merge [] [] },
         some (0 - max SENTINEL_REPEAT_DAYS LANDSAT_REPEAT_DAYS, 0)) :=
  ⟨by decide,
    (C7_retry_semantics { _listing := [], _granules := [] } "11SPS" 0 0 5 3
      (fun i => if i = 2 then some [] else none) (by decide)).1 2 [] (by decide) (by decide)
      (by decide)⟩

/-- C8: when every date of the requested range is already covered for the tile,
`listing` answers from the cache: it returns the sorted stored rows, performs
no catalog query (window `none`), leaves the state untouched, and any repeat
call — even with a different clock or catalog — returns the identical rows. -/
theorem C8_cached_idempotent (st : HLSState) (tile : String) (start_UTC end_UTC today : Int)
    (retries : Nat) (attempts : Nat → Option (List Granule))
    (hcov : ∀ d ∈ date_range start_UTC end_UTC, d ∈ dates_listed st (tile.take 5)) :
    listing st tile start_UTC end_UTC today retries attempts =
      (some (cached_listing st (tile.take 5) start_UTC end_UTC), st, none) ∧
    ∀ (today2 : Int) (attempts2 : Nat → Option (List Granule)),
      listing st tile start_UTC end_UTC today2 retries attempts2 =
        listing st tile start_UTC end_UTC today retries attempts :=
  ⟨listing_covered_eq hcov,
    fun _ _ => (listing_covered_eq hcov).trans (listing_covered_eq hcov).symm⟩

/-- C8 witness: a cache holding day 0 for the tile answers the repeated
single-day query without a search and without touching the state. -/
theorem C8_cached_idempotent_witness :
    (∀ d ∈ date_range 0 0, d ∈ dates_listed st0w ("11SPS123".take 5)) ∧
      listing st0w "11SPS123" 0 0 7 3 (fun _ => none) =
        (some (cached_listing st0w ("11SPS123".take 5) 0 0), st0w, none) :=
  ⟨by decide,
    (C8_cached_idempotent st0w "11SPS123" 0 0 7 3 (fun _ => none) (by decide)).1⟩

/-- C9: merging search results into the granule store deduplicates by
`(ID, date_UTC)` with keep-first: re-ingesting records whose keys are already
present leaves the store exactly unchanged, and any merged store holds at most
one record per key. -/
theorem C9_granule_dedup (store new : List Granule)
    (h1 : uniqueKeys granuleKey store)
    (h2 : ∀ g ∈ new, granuleKey g ∈ store.map granuleKey) :
    granules_merge store new = store ∧
      ∀ l1 l2 : List Granule, uniqueKeys granuleKey (granules_merge l1 l2) :=
  ⟨dedupKey_append_of_keys_subset h1 h2, fun _ _ => dedupKey_unique _⟩

/-- C9 witness: re-ingesting the identical record is a no-op. -/
theorem C9_granule_dedup_witness :
    uniqueKeys granuleKey [g0w] ∧ granules_merge [g0w] [g0w] = [g0w] :=
  ⟨by simp [uniqueKeys],
    (C9_granule_dedup [g0w] [g0w] (by simp [uniqueKeys]) (by decide)).1⟩

/-- C10: `listing`, the NDVI resolution flow and the albedo resolution flow all
truncate the tile argument to its first five characters before any cache
lookup, search or storage, so two tile strings sharing a five-character prefix
behave identically. -/
theorem C10_tile_truncation (st : HLSState) (t1 t2 : String)
    (start_UTC end_UTC date_UTC today : Int) (retries : Nat)
    (attempts : Nat → Option (List Granule)) (h : t1.take 5 = t2.take 5) :
    listing st t1 start_UTC end_UTC today retries attempts =
      listing st t2 start_UTC end_UTC today retries attempts ∧
    NDVI_resolution st t1 date_UTC today retries attempts =
      NDVI_resolution st t2 date_UTC today retries attempts ∧
    albedo_resolution st t1 date_UTC today retries attempts =
      albedo_resolution st t2 date_UTC today retries attempts := by
  refine ⟨?_, ?_, ?_⟩
  · unfold listing
    rw [h]
  · unfold NDVI_resolution
    rw [h]
  · unfold albedo_resolution
    rw [h]

/-- C10 witness: two 8-character tiles with equal 5-character prefixes produce
the same listing. -/
theorem C10_tile_truncation_witness :
    "11SPSAAA".take 5 = "11SPSBBB".take 5 ∧
      listing { _listing := [], _granules := [] } "11SPSAAA" 0 0 5 3 (fun _ => none) =
        listing { _listing := [], _granules := [] } "11SPSBBB" 0 0 5 3 (fun _ => none) :=
  ⟨by decide,
    (C10_tile_truncation { _listing := [], _granules := [] } "11SPSAAA" "11SPSBBB"
      0 0 0 5 3 (fun _ => none) (by decide)).1⟩

/-- C3 (amended): when any requested date is uncovered, the code does not
compute the uncovered sub-range — it delegates the whole requested range
(widened backward by 16 days) to the catalog, and builds fresh rows for every
date of `[start, end]`, covered or not; pre-roll dates are never stored (every
newly stored cell is either an old cell or carries an in-range date). -/
theorem C3_full_range_redelegated (st : HLSState) (tile : String)
    (start_UTC end_UTC today : Int) (retries : Nat) (attempts : Nat → Option (List Granule))
    (rows : List Cell) (st1 : HLSState) (w : Option (Int × Int))
    (hgap : ¬ ∀ d ∈ date_range start_UTC end_UTC, d ∈ dates_listed st (tile.take 5))
    (hrun : listing st tile start_UTC end_UTC today retries attempts = (some rows, st1, w)) :
    w = some (start_UTC - max SENTINEL_REPEAT_DAYS LANDSAT_REPEAT_DAYS, end_UTC) ∧
    (∀ d : Int, (∃ c ∈ rows, c.date_UTC = d) ↔ d ∈ date_range start_UTC end_UTC) ∧
    (∀ c ∈ st1._listing, c ∈ st._listing ∨ c.date_UTC ∈ date_range start_UTC end_UTC) := by
  rw [listing_uncovered_eq hgap] at hrun
  rcases hs : search st retries attempts with _ | ⟨gs, stg⟩
  · rw [hs] at hrun
    cases hrun
  · rw [hs] at hrun
    simp only [Prod.mk.injEq, Option.some.injEq] at hrun
    obtain ⟨hrows, hst1, hw⟩ := hrun
    subst hrows
    subst hst1
    subst hw
    obtain ⟨hstg, -⟩ := search_some_eq hs
    refine ⟨rfl, fun d => ?_, fun c hc => ?_⟩
    · constructor
      · rintro ⟨c, hc, rfl⟩
        exact (mem_buildListing_date hc).1
      · intro hd
        exact exists_buildListing_row hd
    · have hc2 := mem_of_mem_dedupKeyAux _ _ c hc
      rcases List.mem_append.mp hc2 with h | h
      · left
        rw [hstg] at h
        exact h
      · right
        exact (mem_buildListing_date h).1

/-- C3 witness: empty cache, query day 0..1 — the searched window is
`[0 − 16, 1]`, the whole requested range widened backward. -/
theorem C3_full_range_redelegated_witness :
    (¬ ∀ d ∈ date_range 0 1,
        d ∈ dates_listed { _listing := [], _granules := [] } ("11SPS".take 5)) ∧
      (listing { _listing := [], _granules := [] } "11SPS" 0 1 5 3 (fun _ => some [])).2.2 =
        some (0 - max SENTINEL_REPEAT_DAYS LANDSAT_REPEAT_DAYS, 1) :=
  ⟨by decide,
    (C3_full_range_redelegated { _listing := [], _granules := [] } "11SPS" 0 1 5 3
      (fun _ => some [])
      (buildListing [] ("11SPS".take 5) 0 1 (5 - GIVEUP_DAYS))
      ((listing { _listing := [], _granules := [] } "11SPS" 0 1 5 3 (fun _ => some [])).2.1)
      ((listing { _listing := [], _granules := [] } "11SPS" 0 1 5 3 (fun _ => some [])).2.2)
      (by decide) rfl).1⟩

/-- C4 (amended): the cells already stored in the listing cache are never
changed or dropped by a later `listing` call (the keep-first merge retains the
first row per `(date, tile)` key), and key-uniqueness of the store is
preserved; what a later range-extending call returns for such a date may
however be a freshly rebuilt classification. -/
theorem C4_stored_cells_monotone (st : HLSState) (tile : String)
    (start_UTC end_UTC today : Int) (retries : Nat) (attempts : Nat → Option (List Granule))
    (res : Option (List Cell)) (st1 : HLSState) (w : Option (Int × Int))
    (hgood : uniqueKeys cellKey st._listing)
    (hrun : listing st tile start_UTC end_UTC today retries attempts = (res, st1, w)) :
    (∀ c ∈ st._listing, c ∈ st1._listing) ∧ uniqueKeys cellKey st1._listing := by
  by_cases hcov : ∀ d ∈ date_range start_UTC end_UTC, d ∈ dates_listed st (tile.take 5)
  · rw [listing_covered_eq hcov] at hrun
    simp only [Prod.mk.injEq] at hrun
    obtain ⟨-, hst1, -⟩ := hrun
    subst hst1
    exact ⟨fun c h => h, hgood⟩
  · rw [listing_uncovered_eq hcov] at hrun
    rcases hs : search st retries attempts with _ | ⟨gs, stg⟩
    · rw [hs] at hrun
      simp only [Prod.mk.injEq] at hrun
      obtain ⟨-, hst1, -⟩ := hrun
      subst hst1
      exact ⟨fun c h => h, hgood⟩
    · rw [hs] at hrun
      simp only [Prod.mk.injEq, Option.some.injEq] at hrun
      obtain ⟨-, hst1, -⟩ := hrun
      subst hst1
      obtain ⟨hstg, -⟩ := search_some_eq hs
      constructor
      · intro c hc
        refine mem_dedupKey_append_left ?_ c ?_
        · rw [hstg]
          exact hgood
        · rw [hstg]
          exact hc
      · exact dedupKey_unique _

/-- C4 witness: the cell stored by a first single-day call is still stored,
unchanged, after a second call extending the range. -/
theorem C4_stored_cells_monotone_witness :
    uniqueKeys cellKey st0w._listing ∧
      c0w ∈ (listing st0w "11SPS" 0 1 5 3 (fun _ => some [])).2.1._listing :=
  ⟨by simp [uniqueKeys, st0w],
    (C4_stored_cells_monotone st0w "11SPS" 0 1 5 3 (fun _ => some [])
      ((listing st0w "11SPS" 0 1 5 3 (fun _ => some [])).1)
      ((listing st0w "11SPS" 0 1 5 3 (fun _ => some [])).2.1)
      ((listing st0w "11SPS" 0 1 5 3 (fun _ => some [])).2.2)
      (by simp [uniqueKeys, st0w]) rfl).1
      c0w (by simp [st0w])⟩

/-- C6 (amended): provided the catalog returns at most one granule per sensor
per `(tile, date)`, a successful `listing` — whether served from the cache
(given a key-unique cache) or freshly built — returns exactly one row per date
of the inclusive requested range, in ascending date order, and none outside
it: its date column is exactly `date_range start end`. -/
theorem C6_one_row_per_date (st : HLSState) (tile : String) (start_UTC end_UTC today : Int)
    (retries : Nat) (attempts : Nat → Option (List Granule)) (rows : List Cell)
    (st1 : HLSState) (w : Option (Int × Int))
    (hgood : uniqueKeys cellKey st._listing)
    (hone : ∀ (k : Nat) (gs : List Granule), attempts k = some gs → ∀ d : Int,
      (landsatFor gs (tile.take 5) d).length ≤ 1 ∧ (sentinelFor gs (tile.take 5) d).length ≤ 1)
    (hrun : listing st tile start_UTC end_UTC today retries attempts = (some rows, st1, w)) :
    rows.map Cell.date_UTC = date_range start_UTC end_UTC := by
  by_cases hcov : ∀ d ∈ date_range start_UTC end_UTC, d ∈ dates_listed st (tile.take 5)
  · rw [listing_covered_eq hcov] at hrun
    simp only [Prod.mk.injEq, Option.some.injEq] at hrun
    obtain ⟨hrows, -, -⟩ := hrun
    subst hrows
    exact cached_listing_map_date hgood hcov
  · rw [listing_uncovered_eq hcov] at hrun
    rcases hs : search st retries attempts with _ | ⟨gs, stg⟩
    · rw [hs] at hrun
      cases hrun
    · rw [hs] at hrun
      simp only [Prod.mk.injEq, Option.some.injEq] at hrun
      obtain ⟨hrows, -, -⟩ := hrun
      subst hrows
      obtain ⟨-, htr⟩ := search_some_eq hs
      obtain ⟨k, hk⟩ := trySearch_success_exists attempts retries 0 gs htr
      exact buildListing_map_date (fun d => hone k gs hk d)

/-- C6 witness: one sentinel granule on day 0, query day 0..1: the returned
date column is exactly `[0, 1]`. -/
theorem C6_one_row_per_date_witness :
    uniqueKeys cellKey (emptyState)._listing ∧
      (buildListing [g0w] ("11SPS".take 5) 0 1 (5 - GIVEUP_DAYS)).map Cell.date_UTC =
        date_range 0 1 :=
  ⟨by simp [uniqueKeys, emptyState],
    C6_one_row_per_date emptyState "11SPS" 0 1 5 3 (fun _ => some [g0w])
      (buildListing [g0w] ("11SPS".take 5) 0 1 (5 - GIVEUP_DAYS))
      ((listing emptyState "11SPS" 0 1 5 3 (fun _ => some [g0w])).2.1)
      ((listing emptyState "11SPS" 0 1 5 3 (fun _ => some [g0w])).2.2)
      (by simp [uniqueKeys, emptyState])
      (by
        intro k gs hk d
        have hgs : gs = [g0w] := by simpa using hk.symm
        subst hgs
        constructor
        · simpa using List.length_filter_le _ _
        · simpa using List.length_filter_le _ _)
      rfl⟩

end HLS2
